import Mathlib

/-!
Verification of the tail-window selection engine of `tailr`
(`src/tailr/src/lib_mysol1.rs` and `src/tailr/src/lib_mysol2.rs`).

The Rust code is shallowly embedded: `i64` values are modelled as `Int`
together with explicit two's-complement wrapping (`wrap64`) at every
operation whose Rust counterpart can overflow (release-build wrapping
semantics; a debug build would panic at exactly the points where
`wrap64` changes the value), `u64` values as `Nat` (Rust's
`saturating_sub` on `u64` is `Nat` subtraction), strings as `List Char`,
and fallible functions return `Except`/`Option`.
-/

set_option autoImplicit false

namespace Tailr

/-- Two's-complement wrap of an unbounded integer into the `i64` range
`[-2^63, 2^63)`; models Rust release-mode overflow of `i64` arithmetic. -/
def wrap64 (x : Int) : Int :=
  (x + 2 ^ 63) % 2 ^ 64 - 2 ^ 63

/-- Reinterpretation of an `i64` value as a `u64` (Rust `as u64`):
the unique representative of `x` modulo `2^64` in `[0, 2^64)`. -/
def u64OfI64 (x : Int) : Nat :=
  (x % 2 ^ 64).toNat

/-- Rust `i64::wrapping_neg`. -/
def wrappingNeg (x : Int) : Int :=
  wrap64 (-x)

/-- The `TakeValue` enum of both `lib_mysol1.rs` and `lib_mysol2.rs`:
`PlusZero` is the parsed `+0` token, `TakeNum n` a signed count. -/
inductive TakeValue where
  | PlusZero : TakeValue
  | TakeNum : Int → TakeValue
deriving DecidableEq, Repr

/-- Guard `exceed_or_take_zero` of `get_start_index` (`lib_mysol2.rs`
lines 183-187) as a decidable proposition: for `TakeNum(n)` it is
`(total - n).is_negative() || n == &0` with the `i64` subtraction
wrapped, for `PlusZero` it is `false`. -/
def exceed_or_take_zero (take_val : TakeValue) (total : Int) : Prop :=
  match take_val with
  | TakeValue.TakeNum n => wrap64 (total - n) < 0 ∨ n = 0
  | TakeValue.PlusZero => False

instance : (tv : TakeValue) → (total : Int) → Decidable (exceed_or_take_zero tv total)
  | TakeValue.PlusZero, _ => isFalse (fun h => h)
  | TakeValue.TakeNum _, _ => inferInstanceAs (Decidable (_ ∨ _))

/-- Embedding of `get_start_index` (`lib_mysol2.rs` lines 181-193).

```rust
let empty = total == 0;
let exceed_or_take_zero = if let TakeNum(n) = take_val {
    (total - n).is_negative() || n == &0
} else { false };
(!empty && !exceed_or_take_zero).then(|| match take_val {
    PlusZero => 0,
    &TakeNum(n) if n > 0 => n as u64 - 1,
    &TakeNum(n) => (total as u64).saturating_sub(n.wrapping_neg() as u64),
})
```

The subtraction `total - n` is `i64` arithmetic, hence wrapped with
`wrap64`; `n as u64 - 1` is reached only for `n > 0` so its `u64`
subtraction cannot underflow; `saturating_sub` on `u64` is `Nat`
subtraction. Rust's `bool` guards become decidable propositions: the
`empty` and `exceed_or_take_zero` bindings of the source combine in the
guard `!empty && !exceed_or_take_zero`, embedded as the conjunction
below. -/
def get_start_index (take_val : TakeValue) (total : Int) : Option Nat :=
  if ¬ total = 0 ∧ ¬ exceed_or_take_zero take_val total then
    some (match take_val with
      | TakeValue.PlusZero => 0
      | TakeValue.TakeNum n =>
          if 0 < n then u64OfI64 n - 1
          else u64OfI64 total - u64OfI64 (wrappingNeg n))
  else
    none

/-- A `TakeValue` whose payload lies in the `i64` range, as every value
produced by the Rust parser does. -/
def inI64Range : TakeValue → Prop
  | TakeValue.PlusZero => True
  | TakeValue.TakeNum n => -(2 ^ 63) ≤ n ∧ n < 2 ^ 63

instance (tv : TakeValue) : Decidable (inI64Range tv) := by
  cases tv <;> simp [inI64Range] <;> infer_instance

example : get_start_index TakeValue.PlusZero 0 = none := by decide
example : get_start_index TakeValue.PlusZero 1 = some 0 := by decide
example : get_start_index (TakeValue.TakeNum 0) 1 = none := by decide
example : get_start_index (TakeValue.TakeNum 1) 0 = none := by decide
example : get_start_index (TakeValue.TakeNum 2) 1 = none := by decide
example : get_start_index (TakeValue.TakeNum 1) 10 = some 0 := by decide
example : get_start_index (TakeValue.TakeNum 3) 10 = some 2 := by decide
example : get_start_index (TakeValue.TakeNum (-1)) 10 = some 9 := by decide
example : get_start_index (TakeValue.TakeNum (-3)) 10 = some 7 := by decide
example : get_start_index (TakeValue.TakeNum (-20)) 10 = some 0 := by decide

deriving instance DecidableEq for Except

/-- Splitting off the optional leading sign, as the capture group
`(-|\+)?` of `lib_mysol1.rs` (equivalently `([+-])?` of
`lib_mysol2.rs`) does. -/
def splitSign (cs : List Char) : Option Char × List Char :=
  match cs with
  | [] => (none, [])
  | c :: rest =>
      if c = '+' then (some '+', rest)
      else if c = '-' then (some '-', rest)
      else (none, c :: rest)

/-- The anchored regex `^(-|\+)?(\d+)$` (`lib_mysol1.rs` line 83) /
`^([+-])?(\d+)$` (`lib_mysol2.rs` line 90): an optional sign followed by
one or more ASCII digits. Returns the sign (defaulted to `'-'` as both
`parse_num`s do via `map_or`) and the digit group, or `none` when the
token does not match. -/
def numMatch (val : List Char) : Option (Char × List Char) :=
  match splitSign val with
  | (s, ds) =>
      if ds ≠ [] ∧ ds.all Char.isDigit then some (s.getD '-', ds) else none

/-- Value of an ASCII digit string read in base 10. -/
def digitsToNat (ds : List Char) : Nat :=
  ds.foldl (fun a c => 10 * a + (c.toNat - '0'.toNat)) 0

/-- Rust `str::parse::<i64>` applied to the sign character concatenated
with the digit group (`format!("\x7b\x7d\x7b\x7d", sign, num).parse()`
in both files): the signed value when it fits in `i64`, `none` on
overflow. -/
def parseI64 (sign : Char) (ds : List Char) : Option Int :=
  let v : Int := if sign = '-' then -(digitsToNat ds : Int) else (digitsToNat ds : Int)
  if -(2 ^ 63) ≤ v ∧ v ≤ 2 ^ 63 - 1 then some v else none

/-- Embedding of `parse_num` from `lib_mysol1.rs` (lines 82-98): after
the regex match, the pair `(sign, num)` is compared against the string
pair `("+", "0")` to produce `PlusZero`; every other match parses
`sign ++ num` as an `i64`, with the original token as error value both
on regex failure and on overflow. -/
def parse_num1 (val : List Char) : Except (List Char) TakeValue :=
  match numMatch val with
  | none => Except.error val
  | some (sign, num) =>
      if sign = '+' ∧ num = ['0'] then Except.ok TakeValue.PlusZero
      else
        match parseI64 sign num with
        | some v => Except.ok (TakeValue.TakeNum v)
        | none => Except.error val

/-- Embedding of `parse_num` from `lib_mysol2.rs` (lines 89-108): after
the regex match, `sign ++ num` is parsed as an `i64` first, and
`PlusZero` is produced when the sign is `"+"` and the parsed *value* is
zero; the original token is the error value on regex failure and on
overflow. -/
def parse_num2 (val : List Char) : Except (List Char) TakeValue :=
  match numMatch val with
  | none => Except.error val
  | some (sign, num) =>
      match parseI64 sign num with
      | some v =>
          if sign = '+' ∧ v = 0 then Except.ok TakeValue.PlusZero
          else Except.ok (TakeValue.TakeNum v)
      | none => Except.error val

example : parse_num1 "3".toList = Except.ok (TakeValue.TakeNum (-3)) := by decide
example : parse_num2 "3".toList = Except.ok (TakeValue.TakeNum (-3)) := by decide
example : parse_num1 "+3".toList = Except.ok (TakeValue.TakeNum 3) := by decide
example : parse_num2 "+3".toList = Except.ok (TakeValue.TakeNum 3) := by decide
example : parse_num1 "-3".toList = Except.ok (TakeValue.TakeNum (-3)) := by decide
example : parse_num2 "-3".toList = Except.ok (TakeValue.TakeNum (-3)) := by decide
example : parse_num1 "0".toList = Except.ok (TakeValue.TakeNum 0) := by decide
example : parse_num2 "0".toList = Except.ok (TakeValue.TakeNum 0) := by decide
example : parse_num1 "+0".toList = Except.ok TakeValue.PlusZero := by decide
example : parse_num2 "+0".toList = Except.ok TakeValue.PlusZero := by decide
example : parse_num1 "3.14".toList = Except.error "3.14".toList := by decide
example : parse_num1 "foo".toList = Except.error "foo".toList := by decide
example : parse_num1 "".toList = Except.error "".toList := by decide
example : parse_num1 "+00".toList = Except.ok (TakeValue.TakeNum 0) := by decide
example : parse_num2 "+00".toList = Except.ok TakeValue.PlusZero := by decide

/-- The reading loop of `print_lines` (`lib_mysol2.rs` lines 162-176)
over the sequence of chunks successive `read_line` calls return (each
chunk keeps its terminating newline; a trailing partial line is a final
chunk without one): chunks read while `counter < n` are cleared
unwritten, every later chunk is printed verbatim. -/
def printLinesLoop (n : Nat) : Nat → List (List Char) → List Char
  | _, [] => []
  | counter, buffer :: rest =>
      if counter < n then printLinesLoop n (counter + 1) rest
      else buffer ++ printLinesLoop n counter rest

/-- Embedding of `print_lines` (`lib_mysol2.rs` lines 160-179): the
written output, as a function of the chunk sequence of the reader, the
requested line count and the precomputed total. When `get_start_index`
yields `None` nothing is read or written. -/
def print_lines (file : List (List Char)) (num_lines : TakeValue) (total_lines : Int) :
    List Char :=
  match get_start_index num_lines total_lines with
  | some n => printLinesLoop n 0 file
  | none => []

example :
    print_lines [['a', '\n'], ['b', '\n'], ['c']] (TakeValue.TakeNum (-2)) 3 =
      ['b', '\n', 'c'] := by decide
example :
    print_lines [['a', '\n'], ['b', '\n'], ['c']] (TakeValue.TakeNum 0) 3 = [] := by decide

/-- Possible I/O behaviours of one source, as observable by `run`
(`lib_mysol2.rs` lines 110-135) in line mode:
`openFail`: `File::open` in `run` fails with the given message;
`countFail`: the open in `run` succeeds but `count_lines_bytes` fails
(its own reopen or a read error);
`emitFail`: counting succeeds with the given total but the first
`read_line` of the emission pass fails;
`good`: both passes succeed and the reader yields the given chunks. -/
inductive FileSim where
  | openFail : List Char → FileSim
  | countFail : List Char → FileSim
  | emitFail : Nat → List Char → FileSim
  | good : List (List Char) → FileSim
deriving DecidableEq, Repr

/-- Observable events of `run`: the `eprintln!` diagnostic for a failed
open, the `==> name <==` header (tagged with the file number, which
decides the leading blank line), and the bytes written for one source. -/
inductive Event where
  | stderrLine : List Char → List Char → Event
  | headerLine : Nat → List Char → Event
  | written : List Char → Event
deriving DecidableEq, Repr

/-- Header printing of `run` (lines 117-123): emitted only when not
quiet and more than one file was requested. -/
def headerEvents (quiet : Bool) (numFiles fileNum : Nat) (name : List Char) :
    List Event :=
  if !quiet && numFiles > 1 then [Event.headerLine fileNum name] else []

/-- The file loop of `run` (`lib_mysol2.rs` lines 113-133) in line mode
(`config.bytes = None`), over simulated sources: a failed open prints a
diagnostic and the loop continues with the next source; once a source is
open, the header is printed, then `count_lines_bytes(filename)?` and
`print_lines(..)?` propagate any count-pass or emit-pass failure out of
`run` immediately via `?`, abandoning all remaining sources. An
`emitFail` source whose start index resolves to `None` never reaches its
failing read, exactly as `print_lines` performs no read then. Returns
the event trace and `run`'s result. -/
def runLoop (numFiles : Nat) (reqLines : TakeValue) (quiet : Bool) :
    Nat → List (List Char × FileSim) → List Event × Except (List Char) Unit
  | _, [] => ([], Except.ok ())
  | fileNum, (name, sim) :: rest =>
      match sim with
      | FileSim.openFail msg =>
          let r := runLoop numFiles reqLines quiet (fileNum + 1) rest
          (Event.stderrLine name msg :: r.1, r.2)
      | FileSim.countFail msg =>
          (headerEvents quiet numFiles fileNum name, Except.error msg)
      | FileSim.emitFail total msg =>
          match get_start_index reqLines (total : Int) with
          | some _ => (headerEvents quiet numFiles fileNum name, Except.error msg)
          | none =>
              let r := runLoop numFiles reqLines quiet (fileNum + 1) rest
              (headerEvents quiet numFiles fileNum name ++ r.1, r.2)
      | FileSim.good lines =>
          let r := runLoop numFiles reqLines quiet (fileNum + 1) rest
          (headerEvents quiet numFiles fileNum name ++
            Event.written (print_lines lines reqLines (lines.length : Int)) :: r.1,
           r.2)

/-- Embedding of `run` (`lib_mysol2.rs` lines 110-135) in line mode. -/
def runSim (files : List (List Char × FileSim)) (reqLines : TakeValue) (quiet : Bool) :
    List Event × Except (List Char) Unit :=
  runLoop files.length reqLines quiet 0 files

example :
    runSim [("a".toList, FileSim.openFail "no such file".toList),
            ("b".toList, FileSim.good [['x', '\n']])]
        (TakeValue.TakeNum (-10)) false =
      ([Event.stderrLine "a".toList "no such file".toList,
        Event.headerLine 1 "b".toList,
        Event.written ['x', '\n']],
       Except.ok ()) := by decide

theorem two_pow_64_int : (2 : Int) ^ 64 = 18446744073709551616 := by norm_num

theorem two_pow_63_int : (2 : Int) ^ 63 = 9223372036854775808 := by norm_num

/-- On values already inside the `i64` range, `wrap64` is the identity:
the corresponding Rust operation did not overflow. -/
theorem wrap64_eq_self (x : Int) (h1 : -(2 ^ 63) ≤ x) (h2 : x < 2 ^ 63) :
    wrap64 x = x := by
  unfold wrap64
  rw [two_pow_64_int, two_pow_63_int] at *
  omega

/-- Reinterpreting as `u64` is invariant under `i64` wrapping, because
both only look at the value modulo `2^64`. -/
theorem u64OfI64_wrap64 (x : Int) : u64OfI64 (wrap64 x) = u64OfI64 x := by
  unfold u64OfI64 wrap64
  rw [two_pow_64_int, two_pow_63_int] at *
  omega

/-- On values in `[0, 2^64)` the `u64` reinterpretation is `Int.toNat`. -/
theorem u64OfI64_of_nonneg (x : Int) (h1 : 0 ≤ x) (h2 : x < 2 ^ 64) :
    u64OfI64 x = x.toNat := by
  unfold u64OfI64
  rw [two_pow_64_int] at *
  omega

/-- C1: at `take_val = TakeNum(i64::MIN)` and `total = 1` the claim
predicts `Some(saturating_subtract(1, 2^63)) = Some(0)`, but
`get_start_index` computes the guard `(total - n)` in `i64`, which
overflows (`1 - i64::MIN`): under release-mode wrapping the wrapped
difference is negative, so the function returns `None` for a negative
`n` with `total > 0` (a debug build panics at that subtraction). -/
theorem get_start_index_min_negative_returns_none :
    get_start_index (TakeValue.TakeNum (-(2 ^ 63))) 1 = none := by decide

/-- C6: an empty source (`total = 0`) resolves to `None` for every
`TakeValue`, including `PlusZero`; a nonempty source resolves
`PlusZero` to `Some 0`. -/
theorem get_start_index_empty_none_and_plusZero_zero :
    (∀ tv : TakeValue, get_start_index tv 0 = none) ∧
    (∀ total : Int, 0 < total → get_start_index TakeValue.PlusZero total = some 0) := by
  constructor
  · intro tv
    cases tv <;> simp [get_start_index]
  · intro total h
    have hc : ¬ total = 0 ∧ ¬ exceed_or_take_zero TakeValue.PlusZero total :=
      ⟨by omega, fun hx => hx⟩
    unfold get_start_index
    rw [if_pos hc]

/-- Witness for C6 at `total = 5`. -/
theorem get_start_index_empty_none_and_plusZero_zero_witness :
    get_start_index TakeValue.PlusZero 5 = some 0 :=
  get_start_index_empty_none_and_plusZero_zero.2 5 (by norm_num)

/-- C8: both parsers accept the decimal text of `i64::MAX`
(`9223372036854775807`), unsigned and with an explicit `+` (the latter
round-tripping to the value itself, the former to its negation per the
default sign), and both accept the decimal text of `i64::MIN`
(`-9223372036854775808`) without overflow. -/
theorem parse_num_boundary_values :
    parse_num1 "9223372036854775807".toList =
        Except.ok (TakeValue.TakeNum (-9223372036854775807)) ∧
    parse_num2 "9223372036854775807".toList =
        Except.ok (TakeValue.TakeNum (-9223372036854775807)) ∧
    parse_num1 "+9223372036854775807".toList =
        Except.ok (TakeValue.TakeNum 9223372036854775807) ∧
    parse_num2 "+9223372036854775807".toList =
        Except.ok (TakeValue.TakeNum 9223372036854775807) ∧
    parse_num1 "-9223372036854775808".toList =
        Except.ok (TakeValue.TakeNum (-9223372036854775808)) ∧
    parse_num2 "-9223372036854775808".toList =
        Except.ok (TakeValue.TakeNum (-9223372036854775808)) := by
  exact ⟨by decide, by decide, by decide, by decide, by decide, by decide⟩

/-- C5: for a non-negative requested count `n` (any `i64` value) and a
non-negative total, `get_start_index (TakeNum n) total` is
`some (n - 1)` exactly when `1 ≤ n ≤ total` — `n = total` included —
and `none` otherwise (`n = 0` or `n > total`). -/
theorem get_start_index_nonneg_characterization (n total : Int)
    (hn0 : 0 ≤ n) (hn : n < 2 ^ 63) (ht0 : 0 ≤ total) (ht : total < 2 ^ 63) :
    get_start_index (TakeValue.TakeNum n) total =
      if 1 ≤ n ∧ n ≤ total then some (n - 1).toNat else none := by
  have hw : wrap64 (total - n) = total - n :=
    wrap64_eq_self _ (by omega) (by omega)
  have hu : u64OfI64 n = n.toNat :=
    u64OfI64_of_nonneg n hn0 (by rw [two_pow_64_int]; rw [two_pow_63_int] at hn; omega)
  unfold get_start_index exceed_or_take_zero
  simp only [hw, hu]
  by_cases hc : 1 ≤ n ∧ n ≤ total
  · have hcond : ¬ total = 0 ∧ ¬ (total - n < 0 ∨ n = 0) := by omega
    have h4 : 0 < n := by omega
    rw [if_pos hcond, if_pos hc, if_pos h4]
    congr 1
    omega
  · rw [if_neg hc, if_neg ?_]
    omega

/-- Witness for C5 at `n = 3`, `total = 10`. -/
theorem get_start_index_nonneg_characterization_witness :
    get_start_index (TakeValue.TakeNum 3) 10 =
      if 1 ≤ (3 : Int) ∧ (3 : Int) ≤ 10 then some ((3 : Int) - 1).toNat else none :=
  get_start_index_nonneg_characterization 3 10 (by norm_num) (by norm_num)
    (by norm_num) (by norm_num)

/-- C10: whenever `get_start_index` returns `some i` for an `i64`
request and a non-negative `i64` total, the index lies strictly inside
the source (`i < total`), so the emitter, handed a source of exactly
`total` units, always has at least one unit left after the skip. -/
theorem get_start_index_some_lt_total (tv : TakeValue) (total : Int) (i : Nat)
    (hr : inI64Range tv) (ht0 : 0 ≤ total) (ht : total < 2 ^ 63)
    (h : get_start_index tv total = some i) :
    (i : Int) < total ∧
      ∀ file : List (List Char), (file.length : Int) = total → file.drop i ≠ [] := by
  have hmain : (i : Int) < total := by
    cases tv with
    | PlusZero =>
        unfold get_start_index at h
        split_ifs at h with hcond
        obtain ⟨h0, -⟩ := hcond
        injection h with h
        have h' : 0 = i := h
        omega
    | TakeNum n =>
        obtain ⟨hn1, hn2⟩ := hr
        unfold get_start_index at h
        split_ifs at h with hcond
        obtain ⟨h0, hrest⟩ := hcond
        have hrest' : ¬ (wrap64 (total - n) < 0 ∨ n = 0) := hrest
        have hge : ¬ wrap64 (total - n) < 0 := fun hx => hrest' (Or.inl hx)
        have hnz : ¬ n = 0 := fun hx => hrest' (Or.inr hx)
        injection h with h
        have h' : (if 0 < n then u64OfI64 n - 1
            else u64OfI64 total - u64OfI64 (wrappingNeg n)) = i := h
        rcases Decidable.em (0 < n) with hpos | hpos
        · have hw : wrap64 (total - n) = total - n :=
            wrap64_eq_self _ (by omega) (by omega)
          rw [hw] at hge
          have hu : u64OfI64 n = n.toNat :=
            u64OfI64_of_nonneg n (by omega)
              (by rw [two_pow_64_int]; rw [two_pow_63_int] at hn2; omega)
          rw [if_pos hpos, hu] at h'
          omega
        · have hneg : n < 0 := by omega
          have hm : u64OfI64 (wrappingNeg n) = (-n).toNat := by
            unfold wrappingNeg
            rw [u64OfI64_wrap64]
            exact u64OfI64_of_nonneg _ (by omega)
              (by rw [two_pow_64_int]; rw [two_pow_63_int] at hn1; omega)
          have htot : u64OfI64 total = total.toNat :=
            u64OfI64_of_nonneg total ht0
              (by rw [two_pow_64_int]; rw [two_pow_63_int] at ht; omega)
          rw [if_neg hpos, hm, htot] at h'
          omega
  refine ⟨hmain, fun file hlen => ?_⟩
  have hlt : i < file.length := by omega
  intro hdrop
  have := List.drop_eq_nil_iff.mp hdrop
  omega

/-- Witness for C10 at `tv = TakeNum (-3)`, `total = 10`, `i = 7`. -/
theorem get_start_index_some_lt_total_witness :
    ((7 : Nat) : Int) < 10 ∧
      ∀ file : List (List Char), (file.length : Int) = 10 → file.drop 7 ≠ [] :=
  get_start_index_some_lt_total (TakeValue.TakeNum (-3)) 10 7 (by decide)
    (by norm_num) (by norm_num) (by decide)

/-- The skip-then-copy loop of `print_lines` concatenates exactly the
chunks after the first `n - counter` ones. -/
theorem printLinesLoop_eq_drop (n : Nat) (file : List (List Char)) :
    ∀ counter : Nat, counter ≤ n →
      printLinesLoop n counter file = (file.drop (n - counter)).flatten := by
  induction file with
  | nil => intro counter _; simp [printLinesLoop]
  | cons b rest ih =>
      intro counter hc
      by_cases hlt : counter < n
      · have hstep : n - counter = (n - (counter + 1)) + 1 := by omega
        rw [printLinesLoop, if_pos hlt, ih (counter + 1) (by omega), hstep,
          List.drop_succ_cons]
      · have hz : n - counter = 0 := by omega
        rw [printLinesLoop, if_neg hlt, ih counter hc, hz]
        simp

/-- C7: `print_lines` writes exactly the concatenation, in order and
unchanged, of the chunks (lines, the last possibly lacking a newline) at
zero-based index at least the resolved start index, and writes nothing
when `get_start_index` resolves to `None`. -/
theorem print_lines_writes_suffix (file : List (List Char)) (num_lines : TakeValue)
    (total_lines : Int) :
    print_lines file num_lines total_lines =
      match get_start_index num_lines total_lines with
      | some i => (file.drop i).flatten
      | none => [] := by
  unfold print_lines
  cases hg : get_start_index num_lines total_lines with
  | none => rfl
  | some n =>
      have := printLinesLoop_eq_drop n file 0 (Nat.zero_le n)
      simpa using this

/-- A nonempty all-digit token has no sign to split off. -/
theorem splitSign_digits (ds : List Char) (h : ds.all Char.isDigit) :
    splitSign ds = (none, ds) := by
  cases ds with
  | nil => rfl
  | cons c rest =>
      have hc : c.isDigit := by
        rw [List.all_cons, Bool.and_eq_true] at h
        exact h.1
      have h1 : ¬ c = '+' := by
        intro e
        rw [e] at hc
        exact absurd hc (by decide)
      have h2 : ¬ c = '-' := by
        intro e
        rw [e] at hc
        exact absurd hc (by decide)
      simp [splitSign, h1, h2]

/-- A nonempty all-digit token matches the numeric grammar with the
defaulted negative sign. -/
theorem numMatch_digits (ds : List Char) (hne : ds ≠ []) (h : ds.all Char.isDigit) :
    numMatch ds = some ('-', ds) := by
  unfold numMatch
  rw [splitSign_digits ds h]
  simp [hne, h]

/-- An explicit minus followed by digits matches with sign `'-'`. -/
theorem numMatch_minus (ds : List Char) (hne : ds ≠ []) (h : ds.all Char.isDigit) :
    numMatch ('-' :: ds) = some ('-', ds) := by
  unfold numMatch splitSign
  simp [hne, h]

/-- An explicit plus followed by digits matches with sign `'+'`. -/
theorem numMatch_plus (ds : List Char) (hne : ds ≠ []) (h : ds.all Char.isDigit) :
    numMatch ('+' :: ds) = some ('+', ds) := by
  unfold numMatch splitSign
  simp [hne, h]

/-- Inversion of a successful grammar match: the digit group is a
nonempty digit string, and a `'+'` sign can only come from a leading
`'+'` in the token. -/
theorem numMatch_some_inv (val : List Char) (sign : Char) (ds : List Char)
    (h : numMatch val = some (sign, ds)) :
    ds ≠ [] ∧ ds.all Char.isDigit ∧
      (sign = '-' ∨ (sign = '+' ∧ val = '+' :: ds)) := by
  unfold numMatch at h
  rcases hs : splitSign val with ⟨s, ds'⟩
  rw [hs] at h
  have h' : (if ds' ≠ [] ∧ ds'.all Char.isDigit then some (s.getD '-', ds')
      else none) = some (sign, ds) := h
  clear h
  by_cases hcond : ds' ≠ [] ∧ ds'.all Char.isDigit
  · rw [if_pos hcond] at h'
    injection h' with h
    rw [Prod.mk.injEq] at h
    obtain ⟨hsign, hds⟩ := h
    subst hds
    refine ⟨hcond.1, hcond.2, ?_⟩
    cases val with
    | nil =>
        unfold splitSign at hs
        have hs' : ((none, []) : Option Char × List Char) = (s, ds') := hs
        rw [Prod.mk.injEq] at hs'
        rw [← hs'.1] at hsign
        exact Or.inl hsign.symm
    | cons c rest =>
        unfold splitSign at hs
        have hs' : (if c = '+' then ((some '+', rest) : Option Char × List Char)
            else if c = '-' then (some '-', rest) else (none, c :: rest)) = (s, ds') := hs
        clear hs
        by_cases h1 : c = '+'
        · rw [if_pos h1, Prod.mk.injEq] at hs'
          rw [← hs'.1] at hsign
          exact Or.inr ⟨hsign.symm, by rw [h1, hs'.2]⟩
        · rw [if_neg h1] at hs'
          by_cases h2 : c = '-'
          · rw [if_pos h2, Prod.mk.injEq] at hs'
            rw [← hs'.1] at hsign
            exact Or.inl hsign.symm
          · rw [if_neg h2, Prod.mk.injEq] at hs'
            rw [← hs'.1] at hsign
            exact Or.inl hsign.symm
  · rw [if_neg hcond] at h'
    exact absurd h' (by simp)

/-- A successful `i64` parse with sign `'+'` returns the digit value. -/
theorem parseI64_plus_eq (ds : List Char) (v : Int) (h : parseI64 '+' ds = some v) :
    v = (digitsToNat ds : Int) := by
  simp only [parseI64] at h
  rw [if_neg (by decide : ¬ ('+' : Char) = '-')] at h
  split_ifs at h
  injection h with h
  exact h.symm

/-- Both signs parse a digit string of value zero to the value zero. -/
theorem parseI64_zero (ds : List Char) (hzero : digitsToNat ds = 0) :
    parseI64 '-' ds = some 0 ∧ parseI64 '+' ds = some 0 := by
  constructor
  · simp only [parseI64, hzero]
    norm_num
  · simp only [parseI64, hzero]
    rw [if_neg (by decide : ¬ ('+' : Char) = '-')]
    norm_num

/-- C9: for every all-digit token `d`, parsing `d` yields the same
`CountRequest` (the `Option`-view of the result, which forgets only the
error payload) as parsing `'-'` followed by `d`, for both parser
implementations. -/
theorem parse_num_unsigned_eq_negative (d : List Char) (hd : d.all Char.isDigit) :
    (parse_num1 d).toOption = (parse_num1 ('-' :: d)).toOption ∧
    (parse_num2 d).toOption = (parse_num2 ('-' :: d)).toOption := by
  by_cases hne : d = []
  · rw [hne]
    decide
  · have h1 : numMatch d = some ('-', d) := numMatch_digits d hne hd
    have h2 : numMatch ('-' :: d) = some ('-', d) := numMatch_minus d hne hd
    constructor
    · simp only [parse_num1, h1, h2]
      rw [if_neg (by rintro ⟨hc, -⟩; exact absurd hc (by decide))]
      cases parseI64 '-' d <;> rfl
    · simp only [parse_num2, h1, h2]
      cases parseI64 '-' d <;> rfl

/-- Witness for C9 at `d = "3"`. -/
theorem parse_num_unsigned_eq_negative_witness :
    (parse_num1 ['3']).toOption = (parse_num1 ('-' :: ['3'])).toOption ∧
    (parse_num2 ['3']).toOption = (parse_num2 ('-' :: ['3'])).toOption :=
  parse_num_unsigned_eq_negative ['3'] (by decide)

/-- C2 fails on `lib_mysol2.rs`: the token `"+00"` has value zero but is
not the literal `"+0"`, yet `parse_num` of `lib_mysol2.rs` maps it to
`PlusZero` (`FromStart`) rather than `TakeNum 0` (`Signed(0)`), because
it compares the parsed value with `0` instead of the digit string with
`"0"`; `lib_mysol1.rs` maps it to `TakeNum 0` as the claim states. -/
theorem parse_num2_plus_zero_zero :
    parse_num2 "+00".toList = Except.ok TakeValue.PlusZero ∧
    parse_num1 "+00".toList = Except.ok (TakeValue.TakeNum 0) ∧
    Except.ok TakeValue.PlusZero ≠
      (Except.ok (TakeValue.TakeNum 0) : Except (List Char) TakeValue) := by
  exact ⟨by decide, by decide, by decide⟩

/-- C2 (amended): for every nonempty all-digit group `ds` of value zero,
the unsigned and minus-signed forms parse to `TakeNum 0` in both
implementations; the plus-signed form parses to `PlusZero` in
`lib_mysol2.rs` always, but in `lib_mysol1.rs` only for the literal
digit group `"0"`, every longer zero form giving `TakeNum 0`. -/
theorem parse_num_zero_tokens (ds : List Char) (hne : ds ≠ [])
    (hdig : ds.all Char.isDigit) (hzero : digitsToNat ds = 0) :
    parse_num1 ds = Except.ok (TakeValue.TakeNum 0) ∧
    parse_num2 ds = Except.ok (TakeValue.TakeNum 0) ∧
    parse_num1 ('-' :: ds) = Except.ok (TakeValue.TakeNum 0) ∧
    parse_num2 ('-' :: ds) = Except.ok (TakeValue.TakeNum 0) ∧
    parse_num1 ('+' :: ds) = (if ds = ['0'] then Except.ok TakeValue.PlusZero
        else Except.ok (TakeValue.TakeNum 0)) ∧
    parse_num2 ('+' :: ds) = Except.ok TakeValue.PlusZero := by
  obtain ⟨hpm, hpp⟩ := parseI64_zero ds hzero
  have hm := numMatch_digits ds hne hdig
  have hmm := numMatch_minus ds hne hdig
  have hmp := numMatch_plus ds hne hdig
  have hnp : ¬ (('-' : Char) = '+' ∧ ds = ['0']) := by
    rintro ⟨hc, -⟩
    exact absurd hc (by decide)
  refine ⟨?_, ?_, ?_, ?_, ?_, ?_⟩
  · simp only [parse_num1, hm, hpm]
    rw [if_neg hnp]
  · simp only [parse_num2, hm, hpm]
    rw [if_neg (by rintro ⟨hc, -⟩; exact absurd hc (by decide))]
  · simp only [parse_num1, hmm, hpm]
    rw [if_neg hnp]
  · simp only [parse_num2, hmm, hpm]
    rw [if_neg (by rintro ⟨hc, -⟩; exact absurd hc (by decide))]
  · by_cases hd0 : ds = ['0']
    · simp only [parse_num1, hmp, if_pos hd0]
      simp [hd0]
    · simp only [parse_num1, hmp, hpp, if_neg hd0]
      rw [if_neg (by rintro ⟨-, hc⟩; exact hd0 hc)]
  · simp only [parse_num2, hmp, hpp]
    rw [if_pos ⟨trivial, trivial⟩]

/-- Witness for C2 (amended) at `ds = "00"`. -/
theorem parse_num_zero_tokens_witness :
    parse_num1 ['0', '0'] = Except.ok (TakeValue.TakeNum 0) ∧
    parse_num2 ['0', '0'] = Except.ok (TakeValue.TakeNum 0) ∧
    parse_num1 ('-' :: ['0', '0']) = Except.ok (TakeValue.TakeNum 0) ∧
    parse_num2 ('-' :: ['0', '0']) = Except.ok (TakeValue.TakeNum 0) ∧
    parse_num1 ('+' :: ['0', '0']) = (if ['0', '0'] = ['0']
        then Except.ok TakeValue.PlusZero else Except.ok (TakeValue.TakeNum 0)) ∧
    parse_num2 ('+' :: ['0', '0']) = Except.ok TakeValue.PlusZero :=
  parse_num_zero_tokens ['0', '0'] (by decide) (by decide) (by decide)

/-- C4 fails: the two `parse_num` implementations disagree on the
concrete token `"+00"`. -/
theorem parse_num_impls_differ_plus_zero_zero :
    parse_num1 "+00".toList ≠ parse_num2 "+00".toList := by decide

/-- C4 (amended): the two parsers agree on every token except the
plus-signed zero forms with more than one digit (`"+00"`, `"+000"`, …),
where `lib_mysol1.rs` returns `TakeNum 0` and `lib_mysol2.rs` returns
`PlusZero`. -/
theorem parse_num_impls_agree_except_plus_zeros (val : List Char) :
    parse_num1 val = parse_num2 val ∨
    (∃ ds, val = '+' :: ds ∧ ds.all Char.isDigit ∧ digitsToNat ds = 0 ∧
      ds ≠ ['0'] ∧
      parse_num1 val = Except.ok (TakeValue.TakeNum 0) ∧
      parse_num2 val = Except.ok TakeValue.PlusZero) := by
  cases hm : numMatch val with
  | none =>
      left
      simp only [parse_num1, parse_num2, hm]
  | some sd =>
      obtain ⟨sign, ds⟩ := sd
      obtain ⟨hne, hdig, hsign⟩ := numMatch_some_inv val sign ds hm
      rcases hsign with hminus | ⟨hplus, hval⟩
      · subst hminus
        left
        simp only [parse_num1, parse_num2, hm]
        rw [if_neg (by rintro ⟨hc, -⟩; exact absurd hc (by decide))]
        cases parseI64 '-' ds <;> rfl
      · subst hplus
        by_cases hd0 : ds = ['0']
        · left
          rw [hval, hd0]
          decide
        · cases hp : parseI64 '+' ds with
          | none =>
              left
              simp only [parse_num1, parse_num2, hm, hp]
              rw [if_neg (by rintro ⟨-, hc⟩; exact hd0 hc)]
          | some v =>
              by_cases hv0 : v = 0
              · right
                have hdz : digitsToNat ds = 0 := by
                  have := parseI64_plus_eq ds v hp
                  omega
                refine ⟨ds, hval, hdig, hdz, hd0, ?_, ?_⟩
                · simp only [parse_num1, hm, hp]
                  rw [if_neg (by rintro ⟨-, hc⟩; exact hd0 hc), hv0]
                · simp only [parse_num2, hm, hp]
                  rw [if_pos ⟨trivial, hv0⟩]
              · left
                simp only [parse_num1, parse_num2, hm, hp]
                rw [if_neg (by rintro ⟨-, hc⟩; exact hd0 hc),
                  if_neg (by rintro ⟨-, hc⟩; exact hv0 hc)]

/-- C3 fails on the count pass: with two requested sources where the
first fails while counting (after a successful open) and the second is
intact, `run` prints the first header, propagates the count error via
`?`, and terminates — the event trace contains no header and no output
for the second source, so the batch was aborted by a single source's
I/O failure. -/
theorem run_count_failure_aborts_batch :
    runSim [("a".toList, FileSim.countFail "boom".toList),
            ("b".toList, FileSim.good [['x', '\n']])]
        (TakeValue.TakeNum (-10)) false =
      ([Event.headerLine 0 "a".toList], Except.error "boom".toList) := by decide

/-- C3 (amended): a failed `File::open` is fatal for that source only —
its diagnostic is printed and the loop continues with the remaining
sources unchanged — but an I/O failure during the count pass, or during
the emit pass once the start index resolved to `Some`, makes `run`
return the error immediately: the remaining sources produce no events
at all. -/
theorem run_failure_semantics :
    (∀ (numFiles : Nat) (req : TakeValue) (quiet : Bool) (fileNum : Nat)
        (name msg : List Char) (rest : List (List Char × FileSim)),
        runLoop numFiles req quiet fileNum ((name, FileSim.openFail msg) :: rest) =
          (Event.stderrLine name msg ::
            (runLoop numFiles req quiet (fileNum + 1) rest).1,
           (runLoop numFiles req quiet (fileNum + 1) rest).2)) ∧
    (∀ (numFiles : Nat) (req : TakeValue) (quiet : Bool) (fileNum : Nat)
        (name msg : List Char) (rest : List (List Char × FileSim)),
        runLoop numFiles req quiet fileNum ((name, FileSim.countFail msg) :: rest) =
          (headerEvents quiet numFiles fileNum name, Except.error msg)) ∧
    (∀ (numFiles : Nat) (req : TakeValue) (quiet : Bool) (fileNum : Nat)
        (name : List Char) (total : Nat) (msg : List Char)
        (rest : List (List Char × FileSim)) (i : Nat),
        get_start_index req (total : Int) = some i →
        runLoop numFiles req quiet fileNum ((name, FileSim.emitFail total msg) :: rest) =
          (headerEvents quiet numFiles fileNum name, Except.error msg)) := by
  refine ⟨fun _ _ _ _ _ _ _ => rfl, fun _ _ _ _ _ _ _ => rfl,
    fun numFiles req quiet fileNum name total msg rest i h => ?_⟩
  simp only [runLoop, h]

/-- Witness for C3 (amended): a one-source batch whose emit pass fails
at start index `Some 0`. -/
theorem run_failure_semantics_witness :
    runLoop 1 (TakeValue.TakeNum (-1)) true 0
        [("a".toList, FileSim.emitFail 1 "e".toList)] =
      (headerEvents true 1 0 "a".toList, Except.error "e".toList) :=
  run_failure_semantics.2.2 1 (TakeValue.TakeNum (-1)) true 0 "a".toList 1
    "e".toList [] 0 (by decide)

end Tailr
